import Mathlib

/-!
Verification of the test-session orchestration core of `ide/api/monkey.py`
(cloudpebble): the interactive QEMU test dispatch view (`run_qemu_test`), the
worker completion callback (`notify_test_session`), and the session/run data
model they manipulate.

The Django views in `ide/api/monkey.py` are the authority for control flow.
The ORM entities (`TestSession`, `TestRun`, `TestCode`) and the factory
`TestSession.setup_test_session` live in `ide/models/monkey.py`, which is not
part of the surveyed sources; those are modelled from the spec's data model
(Section 3 and the persisted state shape of Section 6: plain persisted fields,
runs created in bulk as PENDING with no timestamps).  Database writes inside
`transaction.atomic()` are modelled as a single pure state transformation, so
atomicity is structural.  Wall-clock time (`timezone.now()`) is passed in as
an explicit `now : Nat` parameter, and the outcome of the synchronous network
dispatch to the worker is an explicit `Except String String` parameter.
-/

/-- Result codes of a test run.  Modelled from the spec: `TestCode` in
`ide/models/monkey.py` is not under the surveyed sources; the spec gives the
enum PENDING, PASSED, FAILED, ERROR. -/
inductive TestCode where
  | pending
  | passed
  | failed
  | error
deriving DecidableEq, Repr

/-- One test's execution within a session.  Modelled from the spec: `TestRun`
in `ide/models/monkey.py` is not under the surveyed sources; the spec's
persisted state shape is Run{id, session_id, test_id?, code, log?,
date_started?, date_completed?}, all plain persisted fields. -/
structure TestRun where
  id : Nat
  session_id : Nat
  test_id : Option Nat
  code : TestCode
  log : Option String
  date_started : Option Nat
  date_completed : Option Nat
deriving DecidableEq, Repr

/-- One batch test invocation.  Modelled from the spec: `TestSession` in
`ide/models/monkey.py` is not under the surveyed sources; the spec's persisted
state shape is Session{id, project_id, date_added, date_started?,
date_completed?}. -/
structure TestSession where
  id : Nat
  project_id : Nat
  date_added : Nat
  date_started : Option Nat
  date_completed : Option Nat
deriving DecidableEq, Repr

/-- A test source file, as far as the views consult it: its primary key and
its owning project (`get_object_or_404(TestFile, pk=test_id, project=project)`
filters on exactly these two). -/
structure TestFile where
  id : Nat
  project_id : Nat
deriving DecidableEq, Repr

/-- The persisted state the two views read and write: the session and run
tables, plus fresh-id counters standing for the database's autoincrement
primary keys. -/
structure DbState where
  sessions : List TestSession
  runs : List TestRun
  next_session_id : Nat
  next_run_id : Nat
deriving DecidableEq, Repr

/-- The empty database. -/
def DbState.init : DbState :=
  { sessions := [], runs := [], next_session_id := 0, next_run_id := 0 }

/-- `leadsWith n h` is true when `n` is an initial segment of `h`
(character-by-character). -/
def leadsWith : List Char → List Char → Bool
  | [], _ => true
  | _ :: _, [] => false
  | a :: as, b :: bs => a == b && leadsWith as bs

/-- `containsSub n h` is true when `n` occurs contiguously inside `h`:
the embedding of Python's substring test `n in h` on strings. -/
def containsSub (needle : List Char) : List Char → Bool
  | [] => needle.isEmpty
  | c :: rest => leadsWith needle (c :: rest) || containsSub needle rest

/-- `strContains hay needle` embeds Python's `needle in hay`. -/
def strContains (hay needle : String) : Bool :=
  containsSub needle.data hay.data

/-- Value of a decimal digit character, `none` for any other character. -/
def digitVal (c : Char) : Option Nat :=
  if '0' ≤ c ∧ c ≤ '9' then some (c.toNat - '0'.toNat) else none

/-- Reads a non-empty all-digit character list as a natural number. -/
def parseDigits (acc : Nat) : List Char → Option Nat
  | [] => some acc
  | c :: cs =>
    match digitVal c with
    | none => none
    | some d => parseDigits (acc * 10 + d) cs

/-- Embedding of Python's `int(s)` on decimal strings: an optional sign
followed by at least one digit; any other input raises `ValueError`,
embedded as `none`. -/
def pyInt (s : String) : Option Int :=
  match s.data with
  | [] => none
  | '-' :: c :: cs => (parseDigits 0 (c :: cs)).map (fun n => -(n : Int))
  | '+' :: c :: cs => (parseDigits 0 (c :: cs)).map (fun n => (n : Int))
  | c :: cs =>
    match digitVal c with
    | none => none
    | some _ => (parseDigits 0 (c :: cs)).map (fun n => (n : Int))

/-- Worker selection, embedding
`next(x for x in set(settings.QEMU_URLS) if host in x)` from `run_qemu_test`:
the first configured address containing the host hint, `none` when no address
matches (Python raises `StopIteration` there).  The source iterates a `set`,
whose order is arbitrary; the embedding fixes the configured order. -/
def selectWorker (host : String) (urls : List String) : Option String :=
  urls.find? (fun u => strContains u host)

/-- Session and run creation.  Modelled from the spec:
`TestSession.setup_test_session(project, test_ids)` in `ide/models/monkey.py`
is not under the surveyed sources; per the spec's `createSession`, it
constructs a new Session and one Run per requested test id, all Runs
initialized to PENDING with no timestamps set. -/
def setup_test_session (st : DbState) (project_id : Nat) (testIds : List Nat)
    (now : Nat) : DbState × TestSession × List TestRun :=
  let sess : TestSession :=
    { id := st.next_session_id, project_id := project_id, date_added := now,
      date_started := none, date_completed := none }
  let newRuns : List TestRun := testIds.enum.map (fun p =>
    { id := st.next_run_id + p.1, session_id := sess.id, test_id := some p.2,
      code := TestCode.pending, log := none,
      date_started := none, date_completed := none })
  ({ sessions := st.sessions ++ [sess],
     runs := st.runs ++ newRuns,
     next_session_id := st.next_session_id + 1,
     next_run_id := st.next_run_id + testIds.length }, sess, newRuns)

/-- Outcome of the `run_qemu_test` view, as seen by its caller. -/
inductive QemuResult where
  | notFound
  | noWorkerFound
  | dispatchError (msg : String)
  | ok (payload : String)
deriving DecidableEq, Repr

/-- Embedding of the `run_qemu_test` view.  `tests` is the `TestFile` table;
`urls` is `settings.QEMU_URLS`; `dispatch` is the outcome of the synchronous
`requests.post` to the worker (`.ok payload` for a 2xx response whose JSON
body is `payload`, `.error msg` for a network failure or
`raise_for_status`).  The view: looks up the test by pk and project (404 when
absent), selects a worker address containing `host`, creates the session and
one run, posts the archive, and on dispatch failure sets each created run's
code to ERROR and its log to the failure message before re-raising. -/
def run_qemu_test (st : DbState) (tests : List TestFile) (urls : List String)
    (project_id test_id : Nat) (host : String)
    (dispatch : Except String String) (now : Nat) : QemuResult × DbState :=
  match tests.find? (fun t => t.id == test_id && t.project_id == project_id) with
  | none => (QemuResult.notFound, st)
  | some _ =>
    match selectWorker host urls with
    | none => (QemuResult.noWorkerFound, st)
    | some _server =>
      let created := setup_test_session st project_id [test_id] now
      let st1 := created.1
      let runs := created.2.2
      match dispatch with
      | Except.ok payload => (QemuResult.ok payload, st1)
      | Except.error msg =>
        (QemuResult.dispatchError msg,
         { st1 with
           runs := st.runs ++ runs.map (fun r =>
             { r with code := TestCode.error, log := some msg }) })

/-- Outcome of the `notify_test_session` callback view. -/
inductive NotifyResult where
  | notFound
  | forbidden
  | badCode
  | ok
deriving DecidableEq, Repr

/-- The callback's result-code mapping from `notify_test_session`:
`0` maps to PASSED, `1` to FAILED and anything else to ERROR. -/
def mapCode (code : Int) : TestCode :=
  if code = 0 then TestCode.passed
  else if code = 1 then TestCode.failed
  else TestCode.error

/-- The body of the `transaction.atomic()` block of `notify_test_session`:
set the session's `date_completed` to now, and for every run owned by the
session set its code to `result`, its log to the posted log and its
`date_completed` to now.  The embedding applies it as one pure state
transformation, so the write is all-or-nothing by construction. -/
def notifyState (st : DbState) (sess : TestSession) (result : TestCode)
    (log : String) (now : Nat) : DbState :=
  { st with
    sessions := st.sessions.map (fun s =>
      if s.id == sess.id then { s with date_completed := some now } else s),
    runs := st.runs.map (fun r =>
      if r.session_id == sess.id then
        { r with code := result, log := some log, date_completed := some now }
      else r) }

/-- Embedding of the `notify_test_session` callback view.  `secret` is
`settings.QEMU_LAUNCH_AUTH_HEADER`; `token`, `codeStr` and `log` are the POST
parameters; `now` is `timezone.now()`.  The view: looks up the session by pk
and project (404 when absent), rejects with 403 when the token differs from
the secret, converts the code with `int(...)` (which raises on non-integer
input, before any write), maps it through 0 to PASSED / 1 to FAILED / else
ERROR, and inside one `transaction.atomic()` sets the session's
`date_completed` and every owned run's `code`, `log` and `date_completed`. -/
def notify_test_session (st : DbState) (secret : String)
    (project_id session_id : Nat) (token codeStr log : String) (now : Nat) :
    NotifyResult × DbState :=
  match st.sessions.find? (fun s => s.id == session_id && s.project_id == project_id) with
  | none => (NotifyResult.notFound, st)
  | some sess =>
    if token != secret then (NotifyResult.forbidden, st)
    else
      match pyInt codeStr with
      | none => (NotifyResult.badCode, st)
      | some code => (NotifyResult.ok, notifyState st sess (mapCode code) log now)

/-- Embedding of the state change of the `post_test_session` view (the batch
variant): create the session and runs, then hand the session id to the
asynchronous task runner (external, no state change in this core). -/
def post_test_session (st : DbState) (project_id : Nat) (testIds : List Nat)
    (now : Nat) : DbState :=
  (setup_test_session st project_id testIds now).1

/-- States reachable from the empty database through the state-mutating
operations of this core. -/
inductive Reachable : DbState → Prop
  | init : Reachable DbState.init
  | qemu (st : DbState) (tests : List TestFile) (urls : List String)
      (project_id test_id : Nat) (host : String)
      (dispatch : Except String String) (now : Nat) :
      Reachable st →
      Reachable (run_qemu_test st tests urls project_id test_id host dispatch now).2
  | notify (st : DbState) (secret : String) (project_id session_id : Nat)
      (token codeStr log : String) (now : Nat) :
      Reachable st →
      Reachable (notify_test_session st secret project_id session_id token codeStr log now).2
  | batch (st : DbState) (project_id : Nat) (testIds : List Nat) (now : Nat) :
      Reachable st →
      Reachable (post_test_session st project_id testIds now)

/-- Primary keys already allocated stay below the autoincrement counters. -/
def IdBound (st : DbState) : Prop :=
  (∀ s ∈ st.sessions, s.id < st.next_session_id) ∧
  (∀ r ∈ st.runs, r.session_id < st.next_session_id)

/-- A completed session has no PENDING run: the one direction of the spec's
completion invariant that the code maintains. -/
def CompleteImpliesTerminal (st : DbState) : Prop :=
  ∀ s ∈ st.sessions, (s.date_completed).isSome →
    ∀ r ∈ st.runs, r.session_id = s.id → r.code ≠ TestCode.pending

/-! ### Helper lemmas -/

lemma mapCode_ne_pending (c : Int) : mapCode c ≠ TestCode.pending := by
  unfold mapCode
  split
  · decide
  · split
    · decide
    · decide

lemma notify_reject_eq (st : DbState) (secret : String) (pid sid : Nat)
    (token codeStr log : String) (now : Nat)
    (h : (notify_test_session st secret pid sid token codeStr log now).1 ≠ NotifyResult.ok) :
    (notify_test_session st secret pid sid token codeStr log now).2 = st := by
  unfold notify_test_session at *
  cases hfind : st.sessions.find? (fun s => s.id == sid && s.project_id == pid) with
  | none => simp [hfind]
  | some sess =>
    by_cases htok : (token != secret) = true
    · simp [hfind, htok]
    · cases hparse : pyInt codeStr with
      | none => simp [hfind, htok, hparse]
      | some c =>
        exfalso
        apply h
        simp [hfind, htok, hparse]

lemma notify_eq_of_found (st : DbState) (secret : String) (pid sid : Nat)
    (codeStr log : String) (now : Nat) (sess : TestSession) (c : Int)
    (hfind : st.sessions.find? (fun s => s.id == sid && s.project_id == pid) = some sess)
    (hparse : pyInt codeStr = some c) :
    notify_test_session st secret pid sid secret codeStr log now =
      (NotifyResult.ok, notifyState st sess (mapCode c) log now) := by
  unfold notify_test_session
  simp [hfind, hparse]

lemma find_session_props (st : DbState) (pid sid : Nat) (sess : TestSession)
    (hfind : st.sessions.find? (fun s => s.id == sid && s.project_id == pid) = some sess) :
    sess ∈ st.sessions ∧ sess.id = sid ∧ sess.project_id = pid := by
  have h1 := List.mem_of_find?_eq_some hfind
  have h2 := List.find?_some hfind
  simp at h2
  exact ⟨h1, h2.1, h2.2⟩

lemma setup_preserves (st : DbState) (pid : Nat) (ids : List Nat) (now : Nat)
    (h : IdBound st ∧ CompleteImpliesTerminal st) :
    IdBound (setup_test_session st pid ids now).1 ∧
    CompleteImpliesTerminal (setup_test_session st pid ids now).1 := by
  obtain ⟨⟨hs, hr⟩, hc⟩ := h
  unfold setup_test_session
  refine ⟨⟨?_, ?_⟩, ?_⟩
  · intro s hmem
    rcases List.mem_append.mp hmem with h1 | h1
    · exact Nat.lt_succ_of_lt (hs s h1)
    · simp at h1
      subst h1
      exact Nat.lt_succ_self _
  · intro r hmem
    rcases List.mem_append.mp hmem with h1 | h1
    · exact Nat.lt_succ_of_lt (hr r h1)
    · rcases List.mem_map.mp h1 with ⟨p, _, rfl⟩
      exact Nat.lt_succ_self _
  · intro s hmem hsome r hrmem hrid
    rcases List.mem_append.mp hmem with h1 | h1
    · rcases List.mem_append.mp hrmem with h2 | h2
      · exact hc s h1 hsome r h2 hrid
      · exfalso
        rcases List.mem_map.mp h2 with ⟨p, _, rfl⟩
        simp at hrid
        have := hs s h1
        omega
    · exfalso
      simp at h1
      subst h1
      simp at hsome

lemma notifyState_preserves (st : DbState) (sess : TestSession) (c : Int)
    (log : String) (now : Nat)
    (h : IdBound st ∧ CompleteImpliesTerminal st) :
    IdBound (notifyState st sess (mapCode c) log now) ∧
    CompleteImpliesTerminal (notifyState st sess (mapCode c) log now) := by
  obtain ⟨⟨hs, hr⟩, hc⟩ := h
  unfold notifyState
  refine ⟨⟨?_, ?_⟩, ?_⟩
  · intro s hmem
    rcases List.mem_map.mp hmem with ⟨s0, h0, rfl⟩
    by_cases hid : s0.id = sess.id
    · simp [hid]
      rw [← hid]
      exact hs s0 h0
    · simp [hid]
      exact hs s0 h0
  · intro r hmem
    rcases List.mem_map.mp hmem with ⟨r0, h0, rfl⟩
    by_cases hid : r0.session_id = sess.id
    · simp [hid]
      rw [← hid]
      exact hr r0 h0
    · simp [hid]
      exact hr r0 h0
  · intro s hmem hsome r hrmem hrid
    rcases List.mem_map.mp hmem with ⟨s0, hs0, rfl⟩
    rcases List.mem_map.mp hrmem with ⟨r0, hr0, rfl⟩
    by_cases hq : r0.session_id = sess.id
    · simp [hq]
      exact mapCode_ne_pending c
    · simp [hq] at hrid ⊢
      by_cases hp : s0.id = sess.id
      · exfalso
        simp [hp] at hrid
        exact hq hrid
      · simp [hp] at hrid hsome
        exact hc s0 hs0 hsome r0 hr0 hrid

lemma qemu_preserves (st : DbState) (tests : List TestFile) (urls : List String)
    (pid tid : Nat) (host : String) (dispatch : Except String String) (now : Nat)
    (h : IdBound st ∧ CompleteImpliesTerminal st) :
    IdBound (run_qemu_test st tests urls pid tid host dispatch now).2 ∧
    CompleteImpliesTerminal (run_qemu_test st tests urls pid tid host dispatch now).2 := by
  unfold run_qemu_test
  cases htest : tests.find? (fun t => t.id == tid && t.project_id == pid) with
  | none => simpa [htest] using h
  | some tf =>
    cases hworker : selectWorker host urls with
    | none => simpa [htest, hworker] using h
    | some server =>
      cases dispatch with
      | ok payload =>
        simp only [htest, hworker]
        exact setup_preserves st pid [tid] now h
      | error msg =>
        obtain ⟨⟨hs, hr⟩, hc⟩ := h
        simp only [htest, hworker]
        unfold setup_test_session
        refine ⟨⟨?_, ?_⟩, ?_⟩
        · intro s hmem
          rcases List.mem_append.mp hmem with h1 | h1
          · exact Nat.lt_succ_of_lt (hs s h1)
          · simp at h1
            subst h1
            exact Nat.lt_succ_self _
        · intro r hmem
          rcases List.mem_append.mp hmem with h1 | h1
          · exact Nat.lt_succ_of_lt (hr r h1)
          · rcases List.mem_map.mp h1 with ⟨r0, h0, rfl⟩
            rcases List.mem_map.mp h0 with ⟨p, _, rfl⟩
            exact Nat.lt_succ_self _
        · intro s hmem hsome r hrmem hrid
          rcases List.mem_append.mp hrmem with h2 | h2
          · rcases List.mem_append.mp hmem with h1 | h1
            · exact hc s h1 hsome r h2 hrid
            · exfalso
              simp at h1
              subst h1
              simp at hsome
          · rcases List.mem_map.mp h2 with ⟨r0, h0, rfl⟩
            simp

lemma notify_preserves (st : DbState) (secret : String) (pid sid : Nat)
    (token codeStr log : String) (now : Nat)
    (h : IdBound st ∧ CompleteImpliesTerminal st) :
    IdBound (notify_test_session st secret pid sid token codeStr log now).2 ∧
    CompleteImpliesTerminal (notify_test_session st secret pid sid token codeStr log now).2 := by
  unfold notify_test_session
  cases hfind : st.sessions.find? (fun s => s.id == sid && s.project_id == pid) with
  | none => simpa [hfind] using h
  | some sess =>
    by_cases htok : (token != secret) = true
    · simpa [hfind, htok] using h
    · cases hparse : pyInt codeStr with
      | none => simpa [hfind, htok, hparse] using h
      | some c =>
        simp only [hfind, htok, hparse, Bool.false_eq_true, if_false]
        have := notifyState_preserves st sess c log now h
        simpa using this

lemma reachable_inv (st : DbState) (h : Reachable st) :
    IdBound st ∧ CompleteImpliesTerminal st := by
  induction h with
  | init =>
    refine ⟨⟨?_, ?_⟩, ?_⟩ <;> intro x hx <;> simp [DbState.init] at hx
  | qemu st tests urls pid tid host dispatch now hst ih =>
    exact qemu_preserves st tests urls pid tid host dispatch now ih
  | notify st secret pid sid token codeStr log now hst ih =>
    exact notify_preserves st secret pid sid token codeStr log now ih
  | batch st pid testIds now hst ih =>
    exact setup_preserves st pid testIds now ih

lemma notify_ok_inv (st : DbState) (secret : String) (pid sid : Nat)
    (token codeStr log : String) (now : Nat)
    (h : (notify_test_session st secret pid sid token codeStr log now).1 = NotifyResult.ok) :
    ∃ sess c,
      st.sessions.find? (fun s => s.id == sid && s.project_id == pid) = some sess ∧
      token = secret ∧ pyInt codeStr = some c ∧
      (notify_test_session st secret pid sid token codeStr log now).2 =
        notifyState st sess (mapCode c) log now := by
  unfold notify_test_session at *
  cases hfind : st.sessions.find? (fun s => s.id == sid && s.project_id == pid) with
  | none => simp [hfind] at h
  | some sess =>
    by_cases htok : (token != secret) = true
    · simp [hfind, htok] at h
    · cases hparse : pyInt codeStr with
      | none => simp [hfind, htok, hparse] at h
      | some c =>
        refine ⟨sess, c, rfl, ?_, rfl, ?_⟩
        · simpa using htok
        · simp [htok]

lemma qemu_dispatch_error_eq (st : DbState) (tests : List TestFile)
    (urls : List String) (pid tid : Nat) (host : String) (msg : String) (now : Nat)
    (tf : TestFile) (server : String)
    (htest : tests.find? (fun t => t.id == tid && t.project_id == pid) = some tf)
    (hworker : selectWorker host urls = some server) :
    run_qemu_test st tests urls pid tid host (Except.error msg) now =
      (QemuResult.dispatchError msg,
       { sessions := st.sessions ++
           [{ id := st.next_session_id, project_id := pid, date_added := now,
              date_started := none, date_completed := none }],
         runs := st.runs ++
           [{ id := st.next_run_id, session_id := st.next_session_id,
              test_id := some tid, code := TestCode.error, log := some msg,
              date_started := none, date_completed := none }],
         next_session_id := st.next_session_id + 1,
         next_run_id := st.next_run_id + 1 }) := by
  unfold run_qemu_test setup_test_session
  simp [htest, hworker, List.enum]

lemma find_notifyState (st : DbState) (sess : TestSession) (a : TestCode)
    (log : String) (n : Nat) (pid sid : Nat) (s0 : TestSession)
    (hfind : st.sessions.find? (fun s => s.id == sid && s.project_id == pid) = some s0) :
    (notifyState st sess a log n).sessions.find?
        (fun s => s.id == sid && s.project_id == pid) =
      some (if s0.id == sess.id then { s0 with date_completed := some n } else s0) := by
  unfold notifyState
  simp only []
  rw [List.find?_map]
  have hcomp : ((fun s : TestSession => s.id == sid && s.project_id == pid) ∘
      (fun s : TestSession =>
        if s.id == sess.id then { s with date_completed := some n } else s)) =
      (fun s : TestSession => s.id == sid && s.project_id == pid) := by
    funext s
    by_cases h : s.id = sess.id <;> simp [h]
  rw [hcomp, hfind]
  rfl

lemma notifyState_id_congr (st : DbState) (sess sess' : TestSession)
    (h : sess.id = sess'.id) (a : TestCode) (log : String) (n : Nat) :
    notifyState st sess a log n = notifyState st sess' a log n := by
  unfold notifyState
  rw [h]

lemma notifyState_absorb (st : DbState) (sess sess' : TestSession)
    (hid : sess'.id = sess.id) (a b : TestCode) (log1 log2 : String) (n1 n2 : Nat) :
    notifyState (notifyState st sess a log1 n1) sess' b log2 n2 =
      notifyState st sess' b log2 n2 := by
  unfold notifyState
  simp only [List.map_map]
  congr 1
  · apply List.map_congr_left
    intro s _
    by_cases h : s.id = sess.id <;> simp [h, hid]
  · apply List.map_congr_left
    intro r _
    by_cases h : r.session_id = sess.id <;> simp [h, hid]

/-! ### Claims -/

/-- C8: worker selection returns a configured address whose text contains the
host hint as a substring whenever at least one such address exists, fails (no
address) when no configured address contains the hint, and on the concrete
examples `selectWorker "alpha" {http, ...}` returns `"http://alpha.local"` in
either enumeration order of the set, while `selectWorker "zzz" {...}` fails. -/
theorem c8_select_worker (host : String) (urls : List String) :
    (∀ a, selectWorker host urls = some a → a ∈ urls ∧ strContains a host = true) ∧
    ((∃ u ∈ urls, strContains u host = true) →
      ∃ a, selectWorker host urls = some a ∧ a ∈ urls ∧ strContains a host = true) ∧
    ((∀ u ∈ urls, strContains u host = false) → selectWorker host urls = none) ∧
    selectWorker "alpha" ["http://alpha.local", "http://beta.local"] =
      some "http://alpha.local" ∧
    selectWorker "alpha" ["http://beta.local", "http://alpha.local"] =
      some "http://alpha.local" ∧
    selectWorker "zzz" ["http://alpha.local", "http://beta.local"] = none := by
  refine ⟨?_, ?_, ?_, by decide, by decide, by decide⟩
  · intro a h
    unfold selectWorker at h
    have hp := @List.find?_some String (fun u => strContains u host) a urls h
    exact ⟨List.mem_of_find?_eq_some h, hp⟩
  · intro hex
    have hsome : (selectWorker host urls).isSome := by
      unfold selectWorker
      rw [List.find?_isSome]
      exact hex
    obtain ⟨a, ha⟩ := Option.isSome_iff_exists.mp hsome
    have ha' : urls.find? (fun u => strContains u host) = some a := ha
    have hp := @List.find?_some String (fun u => strContains u host) a urls ha'
    exact ⟨a, ha, List.mem_of_find?_eq_some ha', hp⟩
  · intro hall
    unfold selectWorker
    rw [List.find?_eq_none]
    intro u hu
    simp [hall u hu]

/-- Witness for C8 at the spec's concrete example. -/
theorem c8_select_worker_witness :
    selectWorker "alpha" ["http://alpha.local", "http://beta.local"] =
      some "http://alpha.local" ∧
    selectWorker "zzz" ["http://alpha.local", "http://beta.local"] = none :=
  ⟨(c8_select_worker "alpha" ["http://alpha.local", "http://beta.local"]).2.2.2.1,
   (c8_select_worker "zzz" ["http://alpha.local", "http://beta.local"]).2.2.2.2.2⟩

/-- C9: requesting an interactive test for a test id that does not belong to
the given project (no `TestFile` row with that pk and that project) fails with
the not-found outcome and leaves the registry exactly as it was: no Session
and no Runs are created. -/
theorem c9_not_found_no_creation (st : DbState) (tests : List TestFile)
    (urls : List String) (pid tid : Nat) (host : String)
    (dispatch : Except String String) (now : Nat)
    (h : tests.find? (fun t => t.id == tid && t.project_id == pid) = none) :
    run_qemu_test st tests urls pid tid host dispatch now = (QemuResult.notFound, st) := by
  unfold run_qemu_test
  simp [h]

/-- Witness for C9: test 5 exists but belongs to project 2, not project 1. -/
theorem c9_not_found_no_creation_witness :
    run_qemu_test DbState.init [{ id := 5, project_id := 2 }] ["http://w"] 1 5 "w"
      (Except.ok "ack") 0 = (QemuResult.notFound, DbState.init) :=
  c9_not_found_no_creation DbState.init [{ id := 5, project_id := 2 }] ["http://w"]
    1 5 "w" (Except.ok "ack") 0 (by decide)

/-- C5: a callback whose supplied token differs from the configured shared
secret is rejected with the forbidden outcome and mutates no Session or Run
state: the whole database is returned exactly as it was. -/
theorem c5_wrong_token_no_mutation (st : DbState) (secret : String) (pid sid : Nat)
    (token codeStr log : String) (now : Nat)
    (hsess : (st.sessions.find? (fun s => s.id == sid && s.project_id == pid)).isSome)
    (htok : token ≠ secret) :
    notify_test_session st secret pid sid token codeStr log now =
      (NotifyResult.forbidden, st) := by
  obtain ⟨sess, hfind⟩ := Option.isSome_iff_exists.mp hsess
  unfold notify_test_session
  simp [hfind, htok]

/-- Witness for C5: token `"bad"` against secret `"s"`. -/
theorem c5_wrong_token_no_mutation_witness :
    notify_test_session
        { sessions := [{ id := 0, project_id := 1, date_added := 0,
                         date_started := none, date_completed := none }],
          runs := [{ id := 0, session_id := 0, test_id := some 4,
                     code := TestCode.pending, log := none,
                     date_started := none, date_completed := none }],
          next_session_id := 1, next_run_id := 1 } "s" 1 0 "bad" "0" "lg" 1 =
      (NotifyResult.forbidden,
       { sessions := [{ id := 0, project_id := 1, date_added := 0,
                        date_started := none, date_completed := none }],
         runs := [{ id := 0, session_id := 0, test_id := some 4,
                    code := TestCode.pending, log := none,
                    date_started := none, date_completed := none }],
         next_session_id := 1, next_run_id := 1 }) :=
  c5_wrong_token_no_mutation _ "s" 1 0 "bad" "0" "lg" 1 (by decide) (by decide)

/-- C10: a callback whose result-code field does not parse as an integer
fails before any mutation (the `int(...)` conversion raises prior to the
transaction), even when the token matches: the Session and all its Runs are
returned unchanged. -/
theorem c10_unparseable_code_no_mutation (st : DbState) (secret : String)
    (pid sid : Nat) (codeStr log : String) (now : Nat)
    (hsess : (st.sessions.find? (fun s => s.id == sid && s.project_id == pid)).isSome)
    (hparse : pyInt codeStr = none) :
    notify_test_session st secret pid sid secret codeStr log now =
      (NotifyResult.badCode, st) := by
  obtain ⟨sess, hfind⟩ := Option.isSome_iff_exists.mp hsess
  unfold notify_test_session
  simp [hfind, hparse]

/-- Witness for C10: code field `"abc"`. -/
theorem c10_unparseable_code_no_mutation_witness :
    notify_test_session
        { sessions := [{ id := 0, project_id := 1, date_added := 0,
                         date_started := none, date_completed := none }],
          runs := [{ id := 0, session_id := 0, test_id := some 4,
                     code := TestCode.pending, log := none,
                     date_started := none, date_completed := none }],
          next_session_id := 1, next_run_id := 1 } "s" 1 0 "s" "abc" "lg" 1 =
      (NotifyResult.badCode,
       { sessions := [{ id := 0, project_id := 1, date_added := 0,
                        date_started := none, date_completed := none }],
         runs := [{ id := 0, session_id := 0, test_id := some 4,
                    code := TestCode.pending, log := none,
                    date_started := none, date_completed := none }],
         next_session_id := 1, next_run_id := 1 }) :=
  c10_unparseable_code_no_mutation _ "s" 1 0 "abc" "lg" 1 (by decide) (by decide)

/-- C4: the callback result-code mapping sends integer 0 to PASSED, 1 to
FAILED and every other integer to ERROR; an authenticated callback carrying
any integer code is accepted (never rejected) and applies the mapped code to
every Run in the session. -/
theorem c4_result_code_mapping (st : DbState) (secret : String) (pid sid : Nat)
    (codeStr log : String) (now : Nat) (c : Int)
    (hsess : (st.sessions.find? (fun s => s.id == sid && s.project_id == pid)).isSome)
    (hparse : pyInt codeStr = some c) :
    mapCode 0 = TestCode.passed ∧ mapCode 1 = TestCode.failed ∧
    (∀ x : Int, x ≠ 0 → x ≠ 1 → mapCode x = TestCode.error) ∧
    (notify_test_session st secret pid sid secret codeStr log now).1 =
      NotifyResult.ok ∧
    (∀ r ∈ (notify_test_session st secret pid sid secret codeStr log now).2.runs,
        r.session_id = sid → r.code = mapCode c) := by
  obtain ⟨sess, hfind⟩ := Option.isSome_iff_exists.mp hsess
  obtain ⟨hmem, hid, hpid⟩ := find_session_props st pid sid sess hfind
  rw [notify_eq_of_found st secret pid sid codeStr log now sess c hfind hparse]
  refine ⟨by decide, by decide, ?_, rfl, ?_⟩
  · intro x hx0 hx1
    unfold mapCode
    simp [hx0, hx1]
  · intro r hr hrid
    simp only [notifyState] at hr
    rcases List.mem_map.mp hr with ⟨r0, h0, rfl⟩
    by_cases hq : r0.session_id = sess.id
    · simp [hq]
    · simp [hq] at hrid
      exact absurd (hrid.trans hid.symm) hq

/-- Witness for C4: code `"7"` maps to ERROR and the callback is accepted. -/
theorem c4_result_code_mapping_witness :
    pyInt "7" = some 7 ∧ mapCode 7 = TestCode.error ∧
    (notify_test_session
        { sessions := [{ id := 0, project_id := 1, date_added := 0,
                         date_started := none, date_completed := none }],
          runs := [{ id := 0, session_id := 0, test_id := some 4,
                     code := TestCode.pending, log := none,
                     date_started := none, date_completed := none }],
          next_session_id := 1, next_run_id := 1 } "s" 1 0 "s" "7" "lg" 9).1 =
      NotifyResult.ok :=
  ⟨by decide, by decide,
   (c4_result_code_mapping _ "s" 1 0 "7" "lg" 9 7 (by decide) (by decide)).2.2.2.1⟩

/-- C2: the callback is all-or-nothing.  When it is not accepted the database
is returned exactly as it was (no Session and no Run partially updated); when
it is accepted the session's completion timestamp is set and every Run owned
by it carries the same mapped result code, the same log text and the same
completion timestamp, all in the one returned state.  In this embedding the
`transaction.atomic()` block is a single pure state transformation, so
partial updates are unrepresentable. -/
theorem c2_callback_atomic (st : DbState) (secret : String) (pid sid : Nat)
    (token codeStr log : String) (now : Nat) :
    ((notify_test_session st secret pid sid token codeStr log now).1 ≠ NotifyResult.ok →
      (notify_test_session st secret pid sid token codeStr log now).2 = st) ∧
    ((notify_test_session st secret pid sid token codeStr log now).1 = NotifyResult.ok →
      ∃ c, pyInt codeStr = some c ∧
        (∃ s ∈ (notify_test_session st secret pid sid token codeStr log now).2.sessions,
            s.id = sid ∧ s.date_completed = some now) ∧
        (∀ s ∈ (notify_test_session st secret pid sid token codeStr log now).2.sessions,
            s.id = sid → s.date_completed = some now) ∧
        (∀ r ∈ (notify_test_session st secret pid sid token codeStr log now).2.runs,
            r.session_id = sid →
              r.code = mapCode c ∧ r.log = some log ∧ r.date_completed = some now)) := by
  constructor
  · exact notify_reject_eq st secret pid sid token codeStr log now
  · intro hok
    obtain ⟨sess, c, hfind, htokeq, hparse, hstate⟩ :=
      notify_ok_inv st secret pid sid token codeStr log now hok
    obtain ⟨hmem, hid, hpid⟩ := find_session_props st pid sid sess hfind
    rw [hstate]
    refine ⟨c, hparse, ?_, ?_, ?_⟩
    · refine ⟨{ sess with date_completed := some now }, ?_, hid, rfl⟩
      simp only [notifyState]
      have heq : ({ sess with date_completed := some now } : TestSession) =
          (fun s : TestSession =>
            if s.id == sess.id then { s with date_completed := some now } else s) sess := by
        simp
      rw [heq]
      exact List.mem_map_of_mem _ hmem
    · intro s hs hsid
      simp only [notifyState] at hs
      rcases List.mem_map.mp hs with ⟨s0, h0, rfl⟩
      by_cases hp : s0.id = sess.id
      · simp [hp]
      · simp [hp] at hsid
        exact absurd (hsid.trans hid.symm) hp
    · intro r hr hrid
      simp only [notifyState] at hr
      rcases List.mem_map.mp hr with ⟨r0, h0, rfl⟩
      by_cases hq : r0.session_id = sess.id
      · simp [hq]
      · simp [hq] at hrid
        exact absurd (hrid.trans hid.symm) hq

/-- Witness for C2 on the rejection side: a wrong token leaves the state
untouched. -/
theorem c2_callback_atomic_witness :
    (notify_test_session
        { sessions := [{ id := 0, project_id := 1, date_added := 0,
                         date_started := none, date_completed := none }],
          runs := [{ id := 0, session_id := 0, test_id := some 4,
                     code := TestCode.pending, log := none,
                     date_started := none, date_completed := none }],
          next_session_id := 1, next_run_id := 1 } "s" 1 0 "bad" "0" "lg" 1).2 =
      { sessions := [{ id := 0, project_id := 1, date_added := 0,
                       date_started := none, date_completed := none }],
        runs := [{ id := 0, session_id := 0, test_id := some 4,
                   code := TestCode.pending, log := none,
                   date_started := none, date_completed := none }],
        next_session_id := 1, next_run_id := 1 } :=
  (c2_callback_atomic _ "s" 1 0 "bad" "0" "lg" 1).1 (by decide)

/-- C3: when the synchronous dispatch to the worker fails, the view reports
the dispatch failure to its caller, the session just created (the one with
the fresh id) has no completion timestamp, and every Run of that session is
ERROR with the failure detail as its log — zero Runs of the session remain
PENDING. -/
theorem c3_dispatch_failure_marks_error (st : DbState) (tests : List TestFile)
    (urls : List String) (pid tid : Nat) (host msg : String) (now : Nat)
    (hb : IdBound st)
    (htest : (tests.find? (fun t => t.id == tid && t.project_id == pid)).isSome)
    (hworker : (selectWorker host urls).isSome) :
    (run_qemu_test st tests urls pid tid host (Except.error msg) now).1 =
      QemuResult.dispatchError msg ∧
    (∃ s ∈ (run_qemu_test st tests urls pid tid host (Except.error msg) now).2.sessions,
        s.id = st.next_session_id ∧ s.date_completed = none) ∧
    (∀ s ∈ (run_qemu_test st tests urls pid tid host (Except.error msg) now).2.sessions,
        s.id = st.next_session_id → s.date_completed = none) ∧
    (∀ r ∈ (run_qemu_test st tests urls pid tid host (Except.error msg) now).2.runs,
        r.session_id = st.next_session_id →
          r.code = TestCode.error ∧ r.log = some msg ∧ r.code ≠ TestCode.pending) := by
  obtain ⟨hbs, hbr⟩ := hb
  obtain ⟨tf, htf⟩ := Option.isSome_iff_exists.mp htest
  obtain ⟨server, hsv⟩ := Option.isSome_iff_exists.mp hworker
  rw [qemu_dispatch_error_eq st tests urls pid tid host msg now tf server htf hsv]
  refine ⟨rfl, ?_, ?_, ?_⟩
  · exact ⟨_, List.mem_append_right _ (List.mem_singleton_self _), rfl, rfl⟩
  · intro s hs hsid
    rcases List.mem_append.mp hs with h1 | h1
    · exact absurd hsid (Nat.ne_of_lt (hbs s h1))
    · simp at h1
      subst h1
      rfl
  · intro r hr hrid
    rcases List.mem_append.mp hr with h1 | h1
    · exact absurd hrid (Nat.ne_of_lt (hbr r h1))
    · simp at h1
      subst h1
      exact ⟨rfl, rfl, by simp⟩

/-- Witness for C3: a failed dispatch from the empty database. -/
theorem c3_dispatch_failure_marks_error_witness :
    (run_qemu_test DbState.init [{ id := 5, project_id := 1 }] ["http://w"] 1 5 "w"
        (Except.error "boom") 3).1 = QemuResult.dispatchError "boom" :=
  (c3_dispatch_failure_marks_error DbState.init [{ id := 5, project_id := 1 }]
      ["http://w"] 1 5 "w" "boom" 3
      ⟨by simp [DbState.init], by simp [DbState.init]⟩ (by decide) (by decide)).1

/-- Counterexample to C6 as stated: after a failed dispatch the affected Run
has its code set to ERROR and the failure message as its log, but its
completion timestamp is NOT set — the except-block in `run_qemu_test` writes
only `code` and `log` before re-raising, never `date_completed`. -/
theorem c6_counterexample :
    (run_qemu_test DbState.init [{ id := 7, project_id := 2 }] ["http://qemu1"]
        2 7 "qemu" (Except.error "conn refused") 5).1 =
      QemuResult.dispatchError "conn refused" ∧
    (run_qemu_test DbState.init [{ id := 7, project_id := 2 }] ["http://qemu1"]
        2 7 "qemu" (Except.error "conn refused") 5).2.runs =
      [{ id := 0, session_id := 0, test_id := some 7, code := TestCode.error,
         log := some "conn refused", date_started := none, date_completed := none }] := by
  decide

/-- C6 amended: dispatch-failure handling sets each affected Run's code to
ERROR and stores the failure message as its log, but does not touch its
completion timestamp, which stays unset (the Run was created with no
timestamps): the result state's run table is exactly the old table plus the
one new Run with code ERROR, the message as log, and `date_completed = none`. -/
theorem c6_error_marking_fields (st : DbState) (tests : List TestFile)
    (urls : List String) (pid tid : Nat) (host msg : String) (now : Nat)
    (htest : (tests.find? (fun t => t.id == tid && t.project_id == pid)).isSome)
    (hworker : (selectWorker host urls).isSome) :
    (run_qemu_test st tests urls pid tid host (Except.error msg) now).2.runs =
      st.runs ++
        [{ id := st.next_run_id, session_id := st.next_session_id,
           test_id := some tid, code := TestCode.error, log := some msg,
           date_started := none, date_completed := none }] := by
  obtain ⟨tf, htf⟩ := Option.isSome_iff_exists.mp htest
  obtain ⟨server, hsv⟩ := Option.isSome_iff_exists.mp hworker
  rw [qemu_dispatch_error_eq st tests urls pid tid host msg now tf server htf hsv]

/-- Witness for the amended C6 at a concrete failed dispatch. -/
theorem c6_error_marking_fields_witness :
    (run_qemu_test DbState.init [{ id := 5, project_id := 1 }] ["http://w"] 1 5 "w"
        (Except.error "down") 2).2.runs =
      [{ id := 0, session_id := 0, test_id := some 5, code := TestCode.error,
         log := some "down", date_started := none, date_completed := none }] :=
  c6_error_marking_fields DbState.init [{ id := 5, project_id := 1 }] ["http://w"]
    1 5 "w" "down" 2 (by decide) (by decide)

/-- C7 amended: re-delivering an accepted callback is accepted again and
re-applies the update — the final state is exactly the state a single
delivery performed at the second delivery's time would produce (same codes
and logs; the completion timestamps carry the second delivery's time, so they
equal the first delivery's timestamps only when the two deliveries share the
same clock reading).  No other data is disturbed. -/
theorem c7_redelivery_reapplies (st : DbState) (secret : String) (pid sid : Nat)
    (token codeStr log : String) (now1 now2 : Nat)
    (hok : (notify_test_session st secret pid sid token codeStr log now1).1 =
      NotifyResult.ok) :
    notify_test_session (notify_test_session st secret pid sid token codeStr log now1).2
        secret pid sid token codeStr log now2 =
      (NotifyResult.ok, (notify_test_session st secret pid sid token codeStr log now2).2) := by
  obtain ⟨sess, c, hfind, htokeq, hparse, hstate⟩ :=
    notify_ok_inv st secret pid sid token codeStr log now1 hok
  rw [htokeq] at hstate ⊢
  rw [hstate]
  have hfind2 := find_notifyState st sess (mapCode c) log now1 pid sid sess hfind
  simp only [beq_self_eq_true, if_true] at hfind2
  rw [notify_eq_of_found (notifyState st sess (mapCode c) log now1) secret pid sid
        codeStr log now2 { sess with date_completed := some now1 } c hfind2 hparse]
  rw [notify_eq_of_found st secret pid sid codeStr log now2 sess c hfind hparse]
  refine congrArg (fun x => (NotifyResult.ok, x)) ?_
  rw [notifyState_absorb st sess { sess with date_completed := some now1 } rfl
        (mapCode c) (mapCode c) log log now1 now2]
  exact notifyState_id_congr st { sess with date_completed := some now1 } sess rfl
    (mapCode c) log now2

/-- Witness for the amended C7: double delivery at times 1 then 2 equals a
single delivery at time 2. -/
theorem c7_redelivery_reapplies_witness :
    notify_test_session
        (notify_test_session
            { sessions := [{ id := 0, project_id := 1, date_added := 0,
                             date_started := none, date_completed := none }],
              runs := [{ id := 0, session_id := 0, test_id := some 4,
                         code := TestCode.pending, log := none,
                         date_started := none, date_completed := none }],
              next_session_id := 1, next_run_id := 1 } "s" 1 0 "s" "0" "lg" 1).2
        "s" 1 0 "s" "0" "lg" 2 =
      (NotifyResult.ok,
       (notify_test_session
            { sessions := [{ id := 0, project_id := 1, date_added := 0,
                             date_started := none, date_completed := none }],
              runs := [{ id := 0, session_id := 0, test_id := some 4,
                         code := TestCode.pending, log := none,
                         date_started := none, date_completed := none }],
              next_session_id := 1, next_run_id := 1 } "s" 1 0 "s" "0" "lg" 2).2) :=
  c7_redelivery_reapplies _ "s" 1 0 "s" "0" "lg" 1 2 (by decide)

/-- Counterexample to C7 as stated: both deliveries are accepted, but the
state after the second delivery is NOT the state after the first — the runs'
and session's completion timestamps are overwritten with the second
delivery's `timezone.now()`, which differs from the first's. -/
theorem c7_counterexample :
    (notify_test_session
        { sessions := [{ id := 0, project_id := 1, date_added := 0,
                         date_started := none, date_completed := none }],
          runs := [{ id := 0, session_id := 0, test_id := some 4,
                     code := TestCode.pending, log := none,
                     date_started := none, date_completed := none }],
          next_session_id := 1, next_run_id := 1 } "s" 1 0 "s" "0" "lg" 1).1 =
      NotifyResult.ok ∧
    (notify_test_session
        (notify_test_session
            { sessions := [{ id := 0, project_id := 1, date_added := 0,
                             date_started := none, date_completed := none }],
              runs := [{ id := 0, session_id := 0, test_id := some 4,
                         code := TestCode.pending, log := none,
                         date_started := none, date_completed := none }],
              next_session_id := 1, next_run_id := 1 } "s" 1 0 "s" "0" "lg" 1).2
        "s" 1 0 "s" "0" "lg" 2).1 = NotifyResult.ok ∧
    (notify_test_session
        (notify_test_session
            { sessions := [{ id := 0, project_id := 1, date_added := 0,
                             date_started := none, date_completed := none }],
              runs := [{ id := 0, session_id := 0, test_id := some 4,
                         code := TestCode.pending, log := none,
                         date_started := none, date_completed := none }],
              next_session_id := 1, next_run_id := 1 } "s" 1 0 "s" "0" "lg" 1).2
        "s" 1 0 "s" "0" "lg" 2).2 ≠
      (notify_test_session
          { sessions := [{ id := 0, project_id := 1, date_added := 0,
                           date_started := none, date_completed := none }],
            runs := [{ id := 0, session_id := 0, test_id := some 4,
                       code := TestCode.pending, log := none,
                       date_started := none, date_completed := none }],
            next_session_id := 1, next_run_id := 1 } "s" 1 0 "s" "0" "lg" 1).2 := by
  decide

/-- C1 amended: in every reachable state, a session whose completion
timestamp is set has only Runs with a terminal code — no reachable state has
a complete session with a PENDING Run.  The converse direction of the claim
(all Runs terminal forces the completion timestamp to be set) is false: see
the dispatch-failure counterexample. -/
theorem c1_completion_invariant (st : DbState) (h : Reachable st) :
    CompleteImpliesTerminal st :=
  (reachable_inv st h).2

/-- Witness for the amended C1 at a reachable completed state: batch-create a
session, then complete it through the callback. -/
theorem c1_completion_invariant_witness :
    CompleteImpliesTerminal
      (notify_test_session (post_test_session DbState.init 1 [4] 0)
        "s" 1 0 "s" "0" "lg" 7).2 :=
  c1_completion_invariant _
    (Reachable.notify _ "s" 1 0 "s" "0" "lg" 7
      (Reachable.batch DbState.init 1 [4] 0 Reachable.init))

/-- Counterexample to C1 as stated: the state reached from the empty database
by one interactive test request whose dispatch fails is a reachable state in
which the session's every Run is terminal (ERROR) while the session's
completion timestamp is unset, so "date_completed is set if and only if every
Run has a terminal code" fails in the only-if-to-if direction. -/
theorem c1_counterexample :
    Reachable (run_qemu_test DbState.init [{ id := 3, project_id := 1 }]
        ["http://qemu0"] 1 3 "qemu0" (Except.error "timeout") 4).2 ∧
    (run_qemu_test DbState.init [{ id := 3, project_id := 1 }]
        ["http://qemu0"] 1 3 "qemu0" (Except.error "timeout") 4).2 =
      { sessions := [{ id := 0, project_id := 1, date_added := 4,
                       date_started := none, date_completed := none }],
        runs := [{ id := 0, session_id := 0, test_id := some 3,
                   code := TestCode.error, log := some "timeout",
                   date_started := none, date_completed := none }],
        next_session_id := 1, next_run_id := 1 } ∧
    ¬ (∀ s ∈ (run_qemu_test DbState.init [{ id := 3, project_id := 1 }]
          ["http://qemu0"] 1 3 "qemu0" (Except.error "timeout") 4).2.sessions,
        ((∀ r ∈ (run_qemu_test DbState.init [{ id := 3, project_id := 1 }]
            ["http://qemu0"] 1 3 "qemu0" (Except.error "timeout") 4).2.runs,
            r.session_id = s.id → r.code ≠ TestCode.pending) ↔
          (s.date_completed).isSome)) :=
  ⟨Reachable.qemu DbState.init [{ id := 3, project_id := 1 }] ["http://qemu0"]
      1 3 "qemu0" (Except.error "timeout") 4 Reachable.init,
   by decide, by decide⟩
